import Mathlib

/-!
# Issuer-name serializers of `goxades` (`serializers.go`)

A shallow embedding of `IssuerSerializerKSeF`, `firstOrEmpty`, `attributeValue` and
`DefaultIssuerSerializer`, followed by the properties the specification states about them.

Modelling conventions.
* Go `string` is `String`; `[]string` and `[]pkix.AttributeTypeAndValue` are lists
  (a nil slice and an empty slice behave alike under `len` and `range`).
* `asn1.ObjectIdentifier` (`[]int`) is `List Int`.
* The dynamically typed `Value any` of an attribute pair is `AnyValue α`: either a
  native string or a value of some other dynamic type, collected in the type
  parameter `α`.  The standard routine `fmt.Sprint`, which the source calls only on
  values that are not strings, is the parameter `sprint : α → String`.
* A run-time panic is an `Except.error`; the only operation of the source that
  can panic is the slice index `values[0]`.
-/

namespace Xades

/-- Ways in which an evaluation of the embedded code can stop without a result. -/
inductive Fault where
  /-- Go run-time panic "index out of range". -/
  | indexOutOfRange
  /-- The format string leaves the fragment of `fmt.Sprintf` that is modelled
  (literal text and the verb `%s` with exactly as many string operands). -/
  | formatNotModelled
  deriving DecidableEq, Repr

/-- The Go type `asn1.ObjectIdentifier`, a slice of integers. -/
abbrev ObjectIdentifier := List Int

/-- The loop of `ObjectIdentifier.Equal`: componentwise comparison of two slices
of the same length. -/
def ObjectIdentifier.Equal.loop : List Int → List Int → Bool
  | a :: oi, b :: other => if a != b then false else ObjectIdentifier.Equal.loop oi other
  | _, _ => true

/-- The method `(oi ObjectIdentifier) Equal(other)` of `encoding/asn1`: the lengths are
compared first, then the components one by one. -/
def ObjectIdentifier.Equal (oi other : ObjectIdentifier) : Bool :=
  if oi.length != other.length then false
  else ObjectIdentifier.Equal.loop oi other

/-- A value of Go type `any` as stored in an attribute pair: a native string, or a
value of another dynamic type. -/
inductive AnyValue (α : Type) where
  | str (s : String)
  | other (a : α)
  deriving DecidableEq, Repr

/-- The Go struct `pkix.AttributeTypeAndValue` (field `Type` is spelled `Type_`). -/
structure AttributeTypeAndValue (α : Type) where
  Type_ : ObjectIdentifier
  Value : AnyValue α
  deriving DecidableEq, Repr

/-- The Go struct `pkix.Name`. -/
structure Name (α : Type) where
  Country : List String := []
  Organization : List String := []
  OrganizationalUnit : List String := []
  Locality : List String := []
  Province : List String := []
  StreetAddress : List String := []
  PostalCode : List String := []
  SerialNumber : String := ""
  CommonName : String := ""
  Names : List (AttributeTypeAndValue α) := []
  ExtraNames : List (AttributeTypeAndValue α) := []
  deriving DecidableEq, Repr

/-- The package variable `oidGivenName = asn1.ObjectIdentifier{2, 5, 4, 42}`. -/
def oidGivenName : ObjectIdentifier := [2, 5, 4, 42]

/-- The package variable `oidSurname = asn1.ObjectIdentifier{2, 5, 4, 4}`. -/
def oidSurname : ObjectIdentifier := [2, 5, 4, 4]

/-- The fragment of `fmt.Sprintf` used by the source, on the characters of the format:
literal characters are copied, each `%s` is replaced by the next operand verbatim.
Any other use of `%`, a missing operand or a left-over operand is outside the
fragment. -/
def Sprintf.render : List Char → List String → Except Fault (List Char)
  | [], [] => .ok []
  | [], _ :: _ => .error .formatNotModelled
  | '%' :: 's' :: rest, a :: args =>
    match Sprintf.render rest args with
    | .ok out => .ok (a.data ++ out)
    | .error e => .error e
  | '%' :: _, _ => .error .formatNotModelled
  | c :: rest, args =>
    match Sprintf.render rest args with
    | .ok out => .ok (c :: out)
    | .error e => .error e

/-- The call `fmt.Sprintf(format, args...)` with string operands. -/
def Sprintf (format : String) (args : List String) : Except Fault String :=
  match Sprintf.render format.data args with
  | .ok out => .ok (String.mk out)
  | .error e => .error e

/-- The function `firstOrEmpty` of `serializers.go`; the index expression `values[0]`
is a checked access. -/
def firstOrEmpty (values : List String) : Except Fault String :=
  if values.length == 0 then
    .ok ""
  else
    match values[0]? with
    | some v => .ok v
    | none => .error .indexOutOfRange

/-- One `for _, atv := range ...` loop of `attributeValue`: the body returns at the
first pair whose `Type` equals `oid`, with the string itself when the value is a
string (`atv.Value.(string)` succeeds) and with `fmt.Sprint(atv.Value)` otherwise.
`none` means that the loop ran to its end without returning. -/
def attributeValue.scan {α : Type} (sprint : α → String) (oid : ObjectIdentifier) :
    List (AttributeTypeAndValue α) → Option String
  | [] => none
  | atv :: rest =>
    if ObjectIdentifier.Equal atv.Type_ oid then
      match atv.Value with
      | .str str => some str
      | .other a => some (sprint a)
    else
      attributeValue.scan sprint oid rest

/-- The function `attributeValue` of `serializers.go`: the loop over `name.Names`, then the
loop over `name.ExtraNames`, then `return ""`. -/
def attributeValue {α : Type} (sprint : α → String) (name : Name α)
    (oid : ObjectIdentifier) : String :=
  match attributeValue.scan sprint oid name.Names with
  | some str => str
  | none =>
    match attributeValue.scan sprint oid name.ExtraNames with
    | some str => str
    | none => ""

/-- The function `IssuerSerializerKSeF` of `serializers.go`. -/
def IssuerSerializerKSeF {α : Type} (sprint : α → String) (name : Name α) :
    Except Fault String :=
  let given := attributeValue sprint name oidGivenName
  let surname := attributeValue sprint name oidSurname
  match firstOrEmpty name.Country with
  | .error e => .error e
  | .ok country =>
    Sprintf "G=%s, SN=%s, SERIALNUMBER=%s, CN=%s, C=%s"
      [given, surname, name.SerialNumber, name.CommonName, country]

/-- The name built in `TestIssuerSerializerKSeF_FormatsExpected`. -/
def testName (α : Type) : Name α :=
  { SerialNumber := "TINPL-1192154885"
    CommonName := "A R"
    Country := ["PL"]
    ExtraNames := [⟨oidGivenName, .str "A"⟩, ⟨oidSurname, .str "R"⟩] }

/-- The text `attributeValue` returns for a stored value: the string itself, or the
`fmt.Sprint` rendering of a value that is not a string. -/
def AnyValue.text {α : Type} (sprint : α → String) : AnyValue α → String
  | .str s => s
  | .other a => sprint a

/-- The lookup in the words of the specification: the value of the first pair, in scan
order over the primary sequence followed by the secondary sequence, whose tag is the
target tag; the empty string when there is none. -/
def attributeValueSpec {α : Type} (sprint : α → String) (name : Name α)
    (oid : ObjectIdentifier) : String :=
  match (name.Names ++ name.ExtraNames).find? (fun atv => decide (atv.Type_ = oid)) with
  | some atv => atv.Value.text sprint
  | none => ""

/-- Whether a pair carries one of the two tags that `IssuerSerializerKSeF` looks up. -/
def isLookedUp {α : Type} (atv : AttributeTypeAndValue α) : Bool :=
  decide (atv.Type_ = oidGivenName ∨ atv.Type_ = oidSurname)

/-- The number of comma characters of a string. -/
def commaCount (s : String) : Nat :=
  s.data.count ','

/-- A dynamic universe with a single value that is not a string, the nil interface
value, which `fmt.Sprint` renders as `<nil>`. -/
def sprintNil : Unit → String := fun _ => "<nil>"

/-- The Go builtin `len` on a string: the number of bytes of its UTF-8 encoding. -/
def len (s : String) : Nat :=
  s.utf8ByteSize

/-! ### The standard routine `pkix.Name.String` behind `DefaultIssuerSerializer`

`DefaultIssuerSerializer` delegates to the method `String` of `crypto/x509/pkix`.  The
method and what it calls are transcribed from the Go standard library.  The DER encoder
`asn1.Marshal` is the parameter `marshal` (`none` when it returns an error), and whether
the slice `ExtraNames` is nil, which a list cannot express, is the parameter
`extraNamesNil` (consulted only when the list is empty). -/

/-- The Go type `pkix.RDNSequence`, a slice of `RelativeDistinguishedNameSET`. -/
abbrev RDNSequence (α : Type) := List (List (AttributeTypeAndValue α))

/-- The method `ObjectIdentifier.String`: the components in decimal, separated by dots. -/
def ObjectIdentifier.String_ (oi : ObjectIdentifier) : String :=
  ".".intercalate (oi.map (fun v => toString v))

/-- The table `attributeTypeNames` of `crypto/x509/pkix`. -/
def attributeTypeNames (oidString : String) : Option String :=
  [("2.5.4.6", "C"), ("2.5.4.10", "O"), ("2.5.4.11", "OU"), ("2.5.4.3", "CN"),
   ("2.5.4.5", "SERIALNUMBER"), ("2.5.4.7", "L"), ("2.5.4.8", "ST"), ("2.5.4.9", "STREET"),
   ("2.5.4.17", "POSTALCODE")].lookup oidString

/-- The function `hex.EncodeToString`: two lower-case hexadecimal digits per byte. -/
def EncodeToString (src : List (Fin 256)) : String :=
  String.mk (src.flatMap (fun v =>
    ["0123456789abcdef".data.getD (v.val / 16) '0',
     "0123456789abcdef".data.getD (v.val % 16) '0']))

/-- The escaping loop of `RDNSequence.String` over the runes of `valueString`; `k` is the
byte offset of the rune and `total` the byte length of the whole string (inside the
loop `total` is positive, so `k == len(valueString)-1` is `k + 1 == total`). -/
def RDNSequence.String_.escape (total : Nat) : Nat → List Char → List Char
  | _, [] => []
  | k, c :: rest =>
    let escape : Bool :=
      if c = ',' ∨ c = '+' ∨ c = Char.ofNat 34 ∨ c = Char.ofNat 92 ∨ c = '<' ∨ c = '>'
          ∨ c = ';' then true
      else if c = ' ' then k == 0 || k + 1 == total
      else if c = '#' then k == 0
      else false
    (if escape then [Char.ofNat 92, c] else [c])
      ++ RDNSequence.String_.escape total (k + c.utf8Size) rest

/-- The inner loop `for j, tv := range rdn` of `RDNSequence.String`. -/
def RDNSequence.String_.inner {α : Type} (sprint : α → String)
    (marshal : AnyValue α → Option (List (Fin 256))) :
    String → Nat → List (AttributeTypeAndValue α) → String
  | s, _, [] => s
  | s, j, tv :: rest =>
    let s := if j > 0 then s ++ "+" else s
    let oidString := tv.Type_.String_
    let valueString := tv.Value.text sprint
    let escaped := String.mk (RDNSequence.String_.escape (len valueString) 0 valueString.data)
    match attributeTypeNames oidString with
    | some typeName =>
      RDNSequence.String_.inner sprint marshal (s ++ (typeName ++ "=" ++ escaped)) (j + 1) rest
    | none =>
      match marshal tv.Value with
      | some derBytes =>
        RDNSequence.String_.inner sprint marshal
          (s ++ (oidString ++ "=#" ++ EncodeToString derBytes)) (j + 1) rest
      | none =>
        RDNSequence.String_.inner sprint marshal (s ++ (oidString ++ "=" ++ escaped)) (j + 1) rest

/-- The outer loop of `RDNSequence.String`, which visits the sets from the last to the
first; the argument is the sequence in visiting order. -/
def RDNSequence.String_.outer {α : Type} (sprint : α → String)
    (marshal : AnyValue α → Option (List (Fin 256))) :
    String → Nat → RDNSequence α → String
  | s, _, [] => s
  | s, i, rdn :: rest =>
    let s := if i > 0 then s ++ "," else s
    RDNSequence.String_.outer sprint marshal
      (RDNSequence.String_.inner sprint marshal s 0 rdn) (i + 1) rest

/-- The method `RDNSequence.String` of `crypto/x509/pkix`. -/
def RDNSequence.String_ {α : Type} (sprint : α → String)
    (marshal : AnyValue α → Option (List (Fin 256))) (r : RDNSequence α) : String :=
  RDNSequence.String_.outer sprint marshal "" 0 r.reverse

/-- The function `oidInAttributeTypeAndValue` of `crypto/x509/pkix`. -/
def oidInAttributeTypeAndValue {α : Type} (oid : ObjectIdentifier) :
    List (AttributeTypeAndValue α) → Bool
  | [] => false
  | a :: atv => if ObjectIdentifier.Equal a.Type_ oid then true
      else oidInAttributeTypeAndValue oid atv

/-- The method `Name.appendRDNs` of `crypto/x509/pkix`. -/
def Name.appendRDNs {α : Type} (n : Name α) (acc : RDNSequence α) (values : List String)
    (oid : ObjectIdentifier) : RDNSequence α :=
  if values.length == 0 || oidInAttributeTypeAndValue oid n.ExtraNames then acc
  else acc ++ [values.map (fun value => ⟨oid, .str value⟩)]

/-- The package variable `oidCountry` of `crypto/x509/pkix`. -/
def oidCountry : ObjectIdentifier := [2, 5, 4, 6]

/-- The package variable `oidOrganization` of `crypto/x509/pkix`. -/
def oidOrganization : ObjectIdentifier := [2, 5, 4, 10]

/-- The package variable `oidOrganizationalUnit` of `crypto/x509/pkix`. -/
def oidOrganizationalUnit : ObjectIdentifier := [2, 5, 4, 11]

/-- The package variable `oidCommonName` of `crypto/x509/pkix`. -/
def oidCommonName : ObjectIdentifier := [2, 5, 4, 3]

/-- The package variable `oidSerialNumber` of `crypto/x509/pkix`. -/
def oidSerialNumber : ObjectIdentifier := [2, 5, 4, 5]

/-- The package variable `oidLocality` of `crypto/x509/pkix`. -/
def oidLocality : ObjectIdentifier := [2, 5, 4, 7]

/-- The package variable `oidProvince` of `crypto/x509/pkix`. -/
def oidProvince : ObjectIdentifier := [2, 5, 4, 8]

/-- The package variable `oidStreetAddress` of `crypto/x509/pkix`. -/
def oidStreetAddress : ObjectIdentifier := [2, 5, 4, 9]

/-- The package variable `oidPostalCode` of `crypto/x509/pkix`. -/
def oidPostalCode : ObjectIdentifier := [2, 5, 4, 17]

/-- The method `Name.ToRDNSequence` of `crypto/x509/pkix`. -/
def Name.ToRDNSequence {α : Type} (n : Name α) : RDNSequence α :=
  let ret : RDNSequence α := []
  let ret := n.appendRDNs ret n.Country oidCountry
  let ret := n.appendRDNs ret n.Province oidProvince
  let ret := n.appendRDNs ret n.Locality oidLocality
  let ret := n.appendRDNs ret n.StreetAddress oidStreetAddress
  let ret := n.appendRDNs ret n.PostalCode oidPostalCode
  let ret := n.appendRDNs ret n.Organization oidOrganization
  let ret := n.appendRDNs ret n.OrganizationalUnit oidOrganizationalUnit
  let ret := if len n.CommonName > 0 then n.appendRDNs ret [n.CommonName] oidCommonName
    else ret
  let ret := if len n.SerialNumber > 0 then n.appendRDNs ret [n.SerialNumber] oidSerialNumber
    else ret
  ret ++ n.ExtraNames.map (fun atv => [atv])

/-- Whether `Name.String` skips a parsed pair because its attribute was already parsed into
a named field: the tag is 2.5.4.x with x one of 3, 5, 6, 7, 8, 9, 10, 11, 17. -/
def Name.String_.skipped (t : ObjectIdentifier) : Bool :=
  match t with
  | [2, 5, 4, x] => x = 3 ∨ x = 5 ∨ x = 6 ∨ x = 7 ∨ x = 8 ∨ x = 9 ∨ x = 10 ∨ x = 11 ∨ x = 17
  | _ => false

/-- The method `Name.String` of `crypto/x509/pkix`. -/
def Name.String_ {α : Type} (sprint : α → String)
    (marshal : AnyValue α → Option (List (Fin 256))) (extraNamesNil : Bool) (n : Name α) :
    String :=
  let rdns : RDNSequence α :=
    if extraNamesNil && n.ExtraNames.isEmpty then
      (n.Names.filter (fun atv => !Name.String_.skipped atv.Type_)).map (fun atv => [atv])
    else []
  RDNSequence.String_ sprint marshal (rdns ++ n.ToRDNSequence)

/-- The Go type `IssuerSerializer`, `func(pkix.Name) string`. -/
abbrev IssuerSerializer (α : Type) := Name α → Except Fault String

/-- The function `DefaultIssuerSerializer` of `serializers.go`: `return name.String()`. -/
def DefaultIssuerSerializer {α : Type} (sprint : α → String)
    (marshal : AnyValue α → Option (List (Fin 256))) (extraNamesNil : Bool) :
    IssuerSerializer α :=
  fun name => .ok (name.String_ sprint marshal extraNamesNil)

/-- A DER encoder used for a concrete evaluation: the PrintableString encodings that
`asn1.Marshal` gives for `A` and `R`, the two values the end-to-end test name stores under
tags without a short name; no other value is encoded. -/
def marshalShort : AnyValue Unit → Option (List (Fin 256))
  | .str "A" => some [0x13, 0x01, 0x41]
  | .str "R" => some [0x13, 0x01, 0x52]
  | _ => none

/-! ## Auxiliary facts -/

theorem firstOrEmpty_eq (values : List String) :
    firstOrEmpty values = .ok (values.headD "") := by
  cases values <;> simp [firstOrEmpty]

theorem Sprintf_issuer (g s n c k : String) :
    Sprintf "G=%s, SN=%s, SERIALNUMBER=%s, CN=%s, C=%s" [g, s, n, c, k]
      = .ok ("G=" ++ g ++ ", SN=" ++ s ++ ", SERIALNUMBER=" ++ n ++ ", CN=" ++ c
          ++ ", C=" ++ k) := by
  simp only [Sprintf, Sprintf.render]
  refine congrArg Except.ok (String.ext ?_)
  simp [String.data_append]

theorem IssuerSerializerKSeF_eq {α : Type} (sprint : α → String) (name : Name α) :
    IssuerSerializerKSeF sprint name
      = .ok ("G=" ++ attributeValue sprint name oidGivenName
          ++ ", SN=" ++ attributeValue sprint name oidSurname
          ++ ", SERIALNUMBER=" ++ name.SerialNumber
          ++ ", CN=" ++ name.CommonName
          ++ ", C=" ++ name.Country.headD "") := by
  simp only [IssuerSerializerKSeF, firstOrEmpty_eq, Sprintf_issuer]

theorem Equal_loop_iff : ∀ (oi other : List Int), oi.length = other.length →
    (ObjectIdentifier.Equal.loop oi other = true ↔ oi = other)
  | [], [], _ => by simp [ObjectIdentifier.Equal.loop]
  | [], _ :: _, h => by simp at h
  | _ :: _, [], h => by simp at h
  | a :: oi, b :: other, h => by
    have ih := Equal_loop_iff oi other (by simpa using h)
    by_cases hab : a = b
    · simp [ObjectIdentifier.Equal.loop, hab, ih]
    · simp [ObjectIdentifier.Equal.loop, hab]

theorem Equal_iff (oi other : ObjectIdentifier) :
    ObjectIdentifier.Equal oi other = true ↔ oi = other := by
  unfold ObjectIdentifier.Equal
  by_cases h : oi.length = other.length
  · simp [h, Equal_loop_iff oi other h]
  · have hne : oi ≠ other := fun e => h (by rw [e])
    simp [h, hne]

theorem scan_cons {α : Type} (sprint : α → String) (oid : ObjectIdentifier)
    (atv : AttributeTypeAndValue α) (rest : List (AttributeTypeAndValue α)) :
    attributeValue.scan sprint oid (atv :: rest)
      = if atv.Type_ = oid then some (atv.Value.text sprint)
        else attributeValue.scan sprint oid rest := by
  by_cases h : atv.Type_ = oid
  · have h2 := (Equal_iff atv.Type_ oid).2 h
    rw [if_pos h, attributeValue.scan, if_pos h2]
    cases atv.Value <;> rfl
  · have h2 : ObjectIdentifier.Equal atv.Type_ oid = false := by
      cases e : ObjectIdentifier.Equal atv.Type_ oid
      · rfl
      · exact absurd ((Equal_iff _ _).1 e) h
    rw [if_neg h, attributeValue.scan, h2]
    rfl

theorem scan_eq_find {α : Type} (sprint : α → String) (oid : ObjectIdentifier)
    (l : List (AttributeTypeAndValue α)) :
    attributeValue.scan sprint oid l
      = (l.find? (fun atv => decide (atv.Type_ = oid))).map (fun atv => atv.Value.text sprint) := by
  induction l with
  | nil => rfl
  | cons atv rest ih =>
    rw [scan_cons]
    by_cases h : atv.Type_ = oid
    · simp [List.find?, h]
    · simp [List.find?, h, ih]

theorem scan_none {α : Type} (sprint : α → String) (oid : ObjectIdentifier)
    (l : List (AttributeTypeAndValue α)) (h : ∀ atv ∈ l, atv.Type_ ≠ oid) :
    attributeValue.scan sprint oid l = none := by
  induction l with
  | nil => rfl
  | cons atv rest ih =>
    rw [scan_cons, if_neg (h atv (List.mem_cons_self _ _))]
    exact ih (fun x hx => h x (List.mem_cons_of_mem _ hx))

theorem scan_append {α : Type} (sprint : α → String) (oid : ObjectIdentifier)
    (l₁ l₂ : List (AttributeTypeAndValue α)) :
    attributeValue.scan sprint oid (l₁ ++ l₂)
      = match attributeValue.scan sprint oid l₁ with
        | some v => some v
        | none => attributeValue.scan sprint oid l₂ := by
  induction l₁ with
  | nil => rfl
  | cons atv rest ih =>
    rw [List.cons_append, scan_cons, scan_cons]
    by_cases h : atv.Type_ = oid
    · simp [h]
    · simp [h, ih]

theorem scan_first {α : Type} (sprint : α → String) (oid : ObjectIdentifier)
    (pre post : List (AttributeTypeAndValue α)) (atv : AttributeTypeAndValue α)
    (hpre : ∀ p ∈ pre, p.Type_ ≠ oid) (hatv : atv.Type_ = oid) :
    attributeValue.scan sprint oid (pre ++ atv :: post) = some (atv.Value.text sprint) := by
  rw [scan_append, scan_none sprint oid pre hpre, scan_cons, if_pos hatv]

theorem attributeValue_eq_scan_append {α : Type} (sprint : α → String) (name : Name α)
    (oid : ObjectIdentifier) :
    attributeValue sprint name oid
      = (attributeValue.scan sprint oid (name.Names ++ name.ExtraNames)).getD "" := by
  unfold attributeValue
  rw [scan_append]
  cases attributeValue.scan sprint oid name.Names with
  | some v => rfl
  | none =>
    cases attributeValue.scan sprint oid name.ExtraNames <;> rfl

theorem exists_first_match {α : Type} (oid : ObjectIdentifier) :
    ∀ (l : List (AttributeTypeAndValue α)), (∃ atv ∈ l, atv.Type_ = oid) →
      ∃ pre atv post, l = pre ++ atv :: post ∧ (∀ p ∈ pre, p.Type_ ≠ oid) ∧ atv.Type_ = oid
  | [], h => by
    obtain ⟨atv, hmem, _⟩ := h
    simp at hmem
  | x :: rest, h => by
    by_cases hx : x.Type_ = oid
    · exact ⟨[], x, rest, rfl, by simp, hx⟩
    · have hrest : ∃ atv ∈ rest, atv.Type_ = oid := by
        obtain ⟨atv, hmem, hatv⟩ := h
        rcases List.mem_cons.1 hmem with e | hm
        · exact absurd (e ▸ hatv) hx
        · exact ⟨atv, hm, hatv⟩
      obtain ⟨pre, atv, post, hsplit, hpre, hatv⟩ := exists_first_match oid rest hrest
      refine ⟨x :: pre, atv, post, by rw [hsplit]; rfl, ?_, hatv⟩
      intro p hp
      rcases List.mem_cons.1 hp with e | hm
      · exact e ▸ hx
      · exact hpre p hm

theorem attributeValue_of_primary {α : Type} (sprint : α → String) (name : Name α)
    (oid : ObjectIdentifier) (pre post : List (AttributeTypeAndValue α))
    (atv : AttributeTypeAndValue α) (hsplit : name.Names = pre ++ atv :: post)
    (hpre : ∀ p ∈ pre, p.Type_ ≠ oid) (hatv : atv.Type_ = oid) :
    attributeValue sprint name oid = atv.Value.text sprint := by
  unfold attributeValue
  rw [hsplit, scan_first sprint oid pre post atv hpre hatv]

theorem scan_filter {α : Type} (sprint : α → String) (oid : ObjectIdentifier)
    (hoid : oid = oidGivenName ∨ oid = oidSurname) (l : List (AttributeTypeAndValue α)) :
    attributeValue.scan sprint oid (l.filter isLookedUp) = attributeValue.scan sprint oid l := by
  induction l with
  | nil => rfl
  | cons atv rest ih =>
    by_cases hk : isLookedUp atv = true
    · rw [List.filter_cons_of_pos hk, scan_cons, scan_cons, ih]
    · have hne : atv.Type_ ≠ oid := by
        intro e
        apply hk
        unfold isLookedUp
        rw [e]
        exact decide_eq_true hoid
      rw [List.filter_cons_of_neg hk, scan_cons, if_neg hne, ih]

theorem attributeValue_congr_filter {α : Type} (sprint : α → String) (n₁ n₂ : Name α)
    (oid : ObjectIdentifier) (hoid : oid = oidGivenName ∨ oid = oidSurname)
    (hN : n₁.Names.filter isLookedUp = n₂.Names.filter isLookedUp)
    (hE : n₁.ExtraNames.filter isLookedUp = n₂.ExtraNames.filter isLookedUp) :
    attributeValue sprint n₁ oid = attributeValue sprint n₂ oid := by
  unfold attributeValue
  rw [← scan_filter sprint oid hoid n₁.Names, ← scan_filter sprint oid hoid n₁.ExtraNames,
    ← scan_filter sprint oid hoid n₂.Names, ← scan_filter sprint oid hoid n₂.ExtraNames,
    hN, hE]

theorem commaCount_append (a b : String) :
    commaCount (a ++ b) = commaCount a + commaCount b := by
  simp [commaCount, String.data_append]

/-! ## The claims -/

/-- C1. For every name, `IssuerSerializerKSeF` returns the concatenation
`G=` g `, SN=` s `, SERIALNUMBER=` SerialNumber `, CN=` CommonName `, C=` k, where g and s
are the lookups of 2.5.4.42 and 2.5.4.4 and k is the result of `firstOrEmpty` on the
country field; the five segments appear in this order whatever the values are. -/
theorem issuerSerializerKSeF_format {α : Type} (sprint : α → String) (name : Name α) :
    ∃ k, firstOrEmpty name.Country = .ok k ∧
      IssuerSerializerKSeF sprint name
        = .ok ("G=" ++ attributeValue sprint name oidGivenName
            ++ ", SN=" ++ attributeValue sprint name oidSurname
            ++ ", SERIALNUMBER=" ++ name.SerialNumber
            ++ ", CN=" ++ name.CommonName
            ++ ", C=" ++ k) :=
  ⟨name.Country.headD "", firstOrEmpty_eq _, IssuerSerializerKSeF_eq sprint name⟩

/-- C2. A name with no primary pairs, secondary pairs (2.5.4.42, g), (2.5.4.4, s),
serial number n, common name c and country [k] is serialized to exactly
`G=g, SN=s, SERIALNUMBER=n, CN=c, C=k` (whatever its remaining fields are), and the name of
the end-to-end test gives `G=A, SN=R, SERIALNUMBER=TINPL-1192154885, CN=A R, C=PL`. -/
theorem issuerSerializerKSeF_secondary_pairs {α : Type} (sprint : α → String)
    (base : Name α) (g s n c k : String) :
    IssuerSerializerKSeF sprint
        { base with
          Names := []
          ExtraNames := [⟨oidGivenName, .str g⟩, ⟨oidSurname, .str s⟩]
          SerialNumber := n
          CommonName := c
          Country := [k] }
      = .ok ("G=" ++ g ++ ", SN=" ++ s ++ ", SERIALNUMBER=" ++ n ++ ", CN=" ++ c
          ++ ", C=" ++ k)
    ∧ IssuerSerializerKSeF sprint (testName α)
      = .ok "G=A, SN=R, SERIALNUMBER=TINPL-1192154885, CN=A R, C=PL" := by
  constructor
  · rw [IssuerSerializerKSeF_eq]
    rfl
  · rfl

/-- C3. `attributeValue` is the first-match lookup over the primary sequence followed by
the secondary one: it equals the single lookup of the specification, it is the empty
string when no pair of either sequence carries the tag, and when the concatenated
sequence splits as `pre ++ atv :: post` with no match in `pre` and a match at `atv`, the
result is the text of `atv` whatever `post` contains. -/
theorem attributeValue_first_match {α : Type} (sprint : α → String) (name : Name α)
    (oid : ObjectIdentifier) :
    attributeValue sprint name oid = attributeValueSpec sprint name oid
    ∧ ((∀ atv ∈ name.Names ++ name.ExtraNames, atv.Type_ ≠ oid) →
        attributeValue sprint name oid = "")
    ∧ (∀ pre atv post, name.Names ++ name.ExtraNames = pre ++ atv :: post →
        (∀ p ∈ pre, p.Type_ ≠ oid) → atv.Type_ = oid →
        attributeValue sprint name oid = atv.Value.text sprint) := by
  refine ⟨?_, ?_, ?_⟩
  · rw [attributeValue_eq_scan_append, scan_eq_find, attributeValueSpec]
    cases (name.Names ++ name.ExtraNames).find? (fun atv => decide (atv.Type_ = oid)) <;> rfl
  · intro h
    rw [attributeValue_eq_scan_append, scan_none sprint oid _ h]
    rfl
  · intro pre atv post hsplit hpre hatv
    rw [attributeValue_eq_scan_append, hsplit, scan_first sprint oid pre post atv hpre hatv]
    rfl

/-- Witness for C3: a surname pair after an unrelated primary pair wins over a later
secondary surname pair, and a tag that occurs nowhere yields the empty string. -/
theorem attributeValue_first_match_witness :
    attributeValue sprintNil
        { Names := [⟨[2, 5, 4, 3], .str "x"⟩, ⟨oidSurname, .str "first"⟩]
          ExtraNames := [⟨oidSurname, .str "second"⟩] } oidSurname = "first"
    ∧ attributeValue sprintNil
        { Names := [⟨[2, 5, 4, 3], .str "x"⟩, ⟨oidSurname, .str "first"⟩]
          ExtraNames := [⟨oidSurname, .str "second"⟩] } oidGivenName = "" :=
  ⟨(attributeValue_first_match sprintNil _ oidSurname).2.2
      [⟨[2, 5, 4, 3], .str "x"⟩] ⟨oidSurname, .str "first"⟩ [⟨oidSurname, .str "second"⟩]
      rfl (by decide) rfl,
   (attributeValue_first_match sprintNil _ oidGivenName).2.1 (by decide)⟩

/-- C4. When the primary sequence holds a pair with the target tag, the lookup returns the
text of the first such primary pair whatever the secondary sequence is; for the given-name
tag the serializer then emits that primary value in its `G=` segment, also when the
secondary sequence holds a conflicting given-name pair. -/
theorem attributeValue_primary_precedence {α : Type} (sprint : α → String) (name : Name α)
    (oid : ObjectIdentifier) (h : ∃ atv ∈ name.Names, atv.Type_ = oid) :
    ∃ pre atv post, name.Names = pre ++ atv :: post ∧ (∀ p ∈ pre, p.Type_ ≠ oid)
      ∧ atv.Type_ = oid
      ∧ (∀ extra, attributeValue sprint { name with ExtraNames := extra } oid
          = atv.Value.text sprint)
      ∧ (oid = oidGivenName → ∀ extra,
          IssuerSerializerKSeF sprint { name with ExtraNames := extra }
            = .ok ("G=" ++ atv.Value.text sprint
                ++ ", SN=" ++ attributeValue sprint { name with ExtraNames := extra } oidSurname
                ++ ", SERIALNUMBER=" ++ name.SerialNumber
                ++ ", CN=" ++ name.CommonName
                ++ ", C=" ++ name.Country.headD "")) := by
  obtain ⟨pre, atv, post, hsplit, hpre, hatv⟩ := exists_first_match oid name.Names h
  have hval : ∀ extra, attributeValue sprint { name with ExtraNames := extra } oid
      = atv.Value.text sprint := fun extra =>
    attributeValue_of_primary sprint { name with ExtraNames := extra } oid pre post atv
      hsplit hpre hatv
  refine ⟨pre, atv, post, hsplit, hpre, hatv, hval, ?_⟩
  intro hoid extra
  rw [IssuerSerializerKSeF_eq, ← hoid, hval extra]

/-- Witness for C4: primary given name `p`, conflicting secondary given name `q`. -/
theorem attributeValue_primary_precedence_witness :
    IssuerSerializerKSeF sprintNil
        { Names := [⟨oidGivenName, .str "p"⟩], ExtraNames := [⟨oidGivenName, .str "q"⟩] }
      = .ok "G=p, SN=, SERIALNUMBER=, CN=, C=" := by
  obtain ⟨pre, atv, post, hsplit, _, _, _, hser⟩ :=
    attributeValue_primary_precedence sprintNil
      { Names := [⟨oidGivenName, .str "p"⟩], ExtraNames := [⟨oidGivenName, .str "q"⟩] }
      oidGivenName ⟨⟨oidGivenName, .str "p"⟩, List.mem_singleton.2 rfl, rfl⟩
  have hatv : atv = ⟨oidGivenName, .str "p"⟩ := by
    cases pre with
    | nil => exact (List.cons.inj hsplit).1.symm
    | cons x xs =>
      have hlen := congrArg List.length hsplit
      simp at hlen
  have := hser rfl [⟨oidGivenName, .str "q"⟩]
  rw [hatv] at this
  exact this

/-- C5. When no pair of the primary or the secondary sequence is tagged 2.5.4.42 or
2.5.4.4, both lookups are empty and the output begins with `G=, SN=, SERIALNUMBER=`. -/
theorem issuerSerializerKSeF_absent_tags {α : Type} (sprint : α → String) (name : Name α)
    (h : ∀ atv ∈ name.Names ++ name.ExtraNames,
      atv.Type_ ≠ oidGivenName ∧ atv.Type_ ≠ oidSurname) :
    attributeValue sprint name oidGivenName = ""
    ∧ attributeValue sprint name oidSurname = ""
    ∧ IssuerSerializerKSeF sprint name
      = .ok ("G=, SN=, SERIALNUMBER=" ++ (name.SerialNumber
          ++ ", CN=" ++ name.CommonName ++ ", C=" ++ name.Country.headD "")) := by
  have hg : attributeValue sprint name oidGivenName = "" := by
    rw [attributeValue_eq_scan_append, scan_none sprint _ _ (fun atv hm => (h atv hm).1)]
    rfl
  have hs : attributeValue sprint name oidSurname = "" := by
    rw [attributeValue_eq_scan_append, scan_none sprint _ _ (fun atv hm => (h atv hm).2)]
    rfl
  refine ⟨hg, hs, ?_⟩
  rw [IssuerSerializerKSeF_eq, hg, hs]
  refine congrArg Except.ok (String.ext ?_)
  simp [String.data_append]

/-- Witness for C5: a name whose only pair is tagged 2.5.4.3. -/
theorem issuerSerializerKSeF_absent_tags_witness :
    IssuerSerializerKSeF sprintNil
        { Names := [⟨[2, 5, 4, 3], .str "x"⟩], SerialNumber := "7", Country := ["PL"] }
      = .ok ("G=, SN=, SERIALNUMBER=" ++ ("7" ++ ", CN=" ++ "" ++ ", C=" ++ "PL")) :=
  (issuerSerializerKSeF_absent_tags sprintNil
    { Names := [⟨[2, 5, 4, 3], .str "x"⟩], SerialNumber := "7", Country := ["PL"] }
    (by decide)).2.2

/-- C6. The output ends with `, C=` followed by the result of `firstOrEmpty` on the country
field; `firstOrEmpty` returns the empty string on the empty sequence and the first element
on a non-empty one, its index access never goes out of range, and the elements after the
first never influence the output. -/
theorem issuerSerializerKSeF_country {α : Type} (sprint : α → String) (name : Name α) :
    (∃ k front, firstOrEmpty name.Country = .ok k
      ∧ IssuerSerializerKSeF sprint name = .ok (front ++ ", C=" ++ k))
    ∧ firstOrEmpty [] = .ok ""
    ∧ (∀ v rest, firstOrEmpty (v :: rest) = .ok v)
    ∧ (∀ values, firstOrEmpty values ≠ .error .indexOutOfRange)
    ∧ (∀ v rest, IssuerSerializerKSeF sprint { name with Country := v :: rest }
        = IssuerSerializerKSeF sprint { name with Country := [v] }) := by
  refine ⟨⟨name.Country.headD "", _, firstOrEmpty_eq _, IssuerSerializerKSeF_eq sprint name⟩,
    rfl, fun v rest => firstOrEmpty_eq (v :: rest), ?_, ?_⟩
  · intro values hv
    rw [firstOrEmpty_eq] at hv
    cases hv
  · intro v rest
    rw [IssuerSerializerKSeF_eq, IssuerSerializerKSeF_eq]
    rfl

/-- C7. The `SERIALNUMBER` and `CN` segments are the fields `SerialNumber` and `CommonName`
verbatim, and the output does not depend on pairs tagged otherwise than 2.5.4.42 and
2.5.4.4: replacing both sequences by ones with the same pairs of these two tags (in the
same order) leaves the output unchanged. -/
theorem issuerSerializerKSeF_fields_verbatim {α : Type} (sprint : α → String)
    (name : Name α) (names extra : List (AttributeTypeAndValue α))
    (hN : names.filter isLookedUp = name.Names.filter isLookedUp)
    (hE : extra.filter isLookedUp = name.ExtraNames.filter isLookedUp) :
    IssuerSerializerKSeF sprint { name with Names := names, ExtraNames := extra }
      = IssuerSerializerKSeF sprint name
    ∧ IssuerSerializerKSeF sprint { name with Names := names, ExtraNames := extra }
      = .ok ("G=" ++ attributeValue sprint name oidGivenName
          ++ ", SN=" ++ attributeValue sprint name oidSurname
          ++ ", SERIALNUMBER=" ++ name.SerialNumber
          ++ ", CN=" ++ name.CommonName
          ++ ", C=" ++ name.Country.headD "") := by
  have hg := attributeValue_congr_filter sprint
    { name with Names := names, ExtraNames := extra } name oidGivenName (Or.inl rfl) hN hE
  have hs := attributeValue_congr_filter sprint
    { name with Names := names, ExtraNames := extra } name oidSurname (Or.inr rfl) hN hE
  have key : IssuerSerializerKSeF sprint { name with Names := names, ExtraNames := extra }
      = IssuerSerializerKSeF sprint name := by
    rw [IssuerSerializerKSeF_eq, IssuerSerializerKSeF_eq, hg, hs]
  exact ⟨key, key.trans (IssuerSerializerKSeF_eq sprint name)⟩

/-- Witness for C7: pairs tagged 2.5.4.5 and 2.5.4.3 added to both sequences of the
end-to-end test name do not reach the `SERIALNUMBER` and `CN` segments. -/
theorem issuerSerializerKSeF_fields_verbatim_witness :
    IssuerSerializerKSeF sprintNil
        { testName Unit with
          Names := [⟨[2, 5, 4, 5], .str "OTHER-SERIAL"⟩, ⟨[2, 5, 4, 3], .str "Other CN"⟩]
          ExtraNames := [⟨[2, 5, 4, 5], .other ()⟩, ⟨oidGivenName, .str "A"⟩,
            ⟨[2, 5, 4, 3], .str "Third CN"⟩, ⟨oidSurname, .str "R"⟩] }
      = IssuerSerializerKSeF sprintNil (testName Unit) :=
  (issuerSerializerKSeF_fields_verbatim sprintNil (testName Unit)
    [⟨[2, 5, 4, 5], .str "OTHER-SERIAL"⟩, ⟨[2, 5, 4, 3], .str "Other CN"⟩]
    [⟨[2, 5, 4, 5], .other ()⟩, ⟨oidGivenName, .str "A"⟩,
      ⟨[2, 5, 4, 3], .str "Third CN"⟩, ⟨oidSurname, .str "R"⟩]
    (by decide) (by decide)).1

/-- C8, as stated, fails: a common name containing a comma yields an output with five
comma characters. -/
theorem issuerSerializerKSeF_comma_counterexample :
    IssuerSerializerKSeF sprintNil { CommonName := "Doe, John" }
      = .ok "G=, SN=, SERIALNUMBER=, CN=Doe, John, C="
    ∧ commaCount "G=, SN=, SERIALNUMBER=, CN=Doe, John, C=" = 5
    ∧ ¬ (∀ (name : Name Unit) (out : String),
          IssuerSerializerKSeF sprintNil name = .ok out → commaCount out = 4) := by
  refine ⟨rfl, by decide, ?_⟩
  intro hall
  have h5 : commaCount "G=, SN=, SERIALNUMBER=, CN=Doe, John, C=" = 4 :=
    hall { CommonName := "Doe, John" } _ rfl
  revert h5
  decide

/-- C8, amended. For every name the output is the five prefixes `G=`, `SN=`, `SERIALNUMBER=`,
`CN=`, `C=` in this order, each followed by its value and joined by four `, ` separators
that come from the format; the number of comma characters of the output is four plus
the number of comma characters of the five values. -/
theorem issuerSerializerKSeF_separators {α : Type} (sprint : α → String) (name : Name α) :
    ∃ g s k out, g = attributeValue sprint name oidGivenName
      ∧ s = attributeValue sprint name oidSurname
      ∧ firstOrEmpty name.Country = .ok k
      ∧ IssuerSerializerKSeF sprint name = .ok out
      ∧ out = "G=" ++ g ++ ", SN=" ++ s ++ ", SERIALNUMBER=" ++ name.SerialNumber
          ++ ", CN=" ++ name.CommonName ++ ", C=" ++ k
      ∧ commaCount out = 4 + (commaCount g + commaCount s + commaCount name.SerialNumber
          + commaCount name.CommonName + commaCount k) := by
  refine ⟨_, _, name.Country.headD "", _, rfl, rfl, firstOrEmpty_eq _,
    IssuerSerializerKSeF_eq sprint name, rfl, ?_⟩
  simp only [commaCount_append]
  have e1 : commaCount "G=" = 0 := by decide
  have e2 : commaCount ", SN=" = 1 := by decide
  have e3 : commaCount ", SERIALNUMBER=" = 1 := by decide
  have e4 : commaCount ", CN=" = 1 := by decide
  have e5 : commaCount ", C=" = 1 := by decide
  rw [e1, e2, e3, e4, e5]
  omega

/-- C9. When the first pair with the target tag stores a string, the lookup returns that
string unchanged; when it stores a value of another type, the lookup returns the
`fmt.Sprint` rendering of it; in both cases the pairs after it are not consulted. -/
theorem attributeValue_coercion {α : Type} (sprint : α → String) (name : Name α)
    (oid : ObjectIdentifier) (pre post : List (AttributeTypeAndValue α))
    (atv : AttributeTypeAndValue α)
    (hsplit : name.Names ++ name.ExtraNames = pre ++ atv :: post)
    (hpre : ∀ p ∈ pre, p.Type_ ≠ oid) (hatv : atv.Type_ = oid) :
    (∀ v, atv.Value = .str v → attributeValue sprint name oid = v)
    ∧ (∀ a, atv.Value = .other a → attributeValue sprint name oid = sprint a)
    ∧ (∀ (other : Name α) (later : List (AttributeTypeAndValue α)),
        other.Names ++ other.ExtraNames = pre ++ atv :: later →
        attributeValue sprint other oid = attributeValue sprint name oid) := by
  have hname : attributeValue sprint name oid = atv.Value.text sprint := by
    rw [attributeValue_eq_scan_append, hsplit, scan_first sprint oid pre post atv hpre hatv]
    rfl
  refine ⟨?_, ?_, ?_⟩
  · intro v hv
    rw [hname, hv]
    rfl
  · intro a ha
    rw [hname, ha]
    rfl
  · intro other later hother
    rw [hname, attributeValue_eq_scan_append, hother,
      scan_first sprint oid pre later atv hpre hatv]
    rfl

/-- Witness for C9: the first given-name pair stores the nil value, a later one a
string; the result is the rendering `<nil>` of the first. -/
theorem attributeValue_coercion_witness :
    attributeValue sprintNil
        { Names := [⟨oidSurname, .str " R "⟩, ⟨oidGivenName, .other ()⟩]
          ExtraNames := [⟨oidGivenName, .str "later"⟩] } oidGivenName = "<nil>"
    ∧ attributeValue sprintNil
        { Names := [⟨oidSurname, .str " R "⟩, ⟨oidGivenName, .other ()⟩]
          ExtraNames := [⟨oidGivenName, .str "later"⟩] } oidSurname = " R " :=
  ⟨(attributeValue_coercion sprintNil
      { Names := [⟨oidSurname, .str " R "⟩, ⟨oidGivenName, .other ()⟩]
        ExtraNames := [⟨oidGivenName, .str "later"⟩] } oidGivenName
      [⟨oidSurname, .str " R "⟩] [⟨oidGivenName, .str "later"⟩] ⟨oidGivenName, .other ()⟩
      rfl (by decide) rfl).2.1 () rfl,
   (attributeValue_coercion sprintNil
      { Names := [⟨oidSurname, .str " R "⟩, ⟨oidGivenName, .other ()⟩]
        ExtraNames := [⟨oidGivenName, .str "later"⟩] } oidSurname
      [] [⟨oidGivenName, .other ()⟩, ⟨oidGivenName, .str "later"⟩] ⟨oidSurname, .str " R "⟩
      rfl (by decide) rfl).1 " R " rfl⟩

/-- C10. `IssuerSerializerKSeF` returns a string for every name (no panic, no format
fault), `attributeValue` returns a string for every name and tag, and a name with empty
sequences, empty serial number, empty common name and empty country is serialized to
`G=, SN=, SERIALNUMBER=, CN=, C=`. -/
theorem issuerSerializerKSeF_total {α : Type} (sprint : α → String) (name : Name α)
    (oid : ObjectIdentifier) :
    (∃ out, IssuerSerializerKSeF sprint name = .ok out)
    ∧ (∀ e, IssuerSerializerKSeF sprint name ≠ .error e)
    ∧ (∃ v, attributeValue sprint name oid = v)
    ∧ IssuerSerializerKSeF sprint
        { name with Names := [], ExtraNames := [], SerialNumber := "", CommonName := "",
                    Country := [] }
      = .ok "G=, SN=, SERIALNUMBER=, CN=, C=" := by
  refine ⟨⟨_, IssuerSerializerKSeF_eq sprint name⟩, ?_, ⟨_, rfl⟩, rfl⟩
  intro e he
  rw [IssuerSerializerKSeF_eq] at he
  cases he

/-- C11. `ObjectIdentifier.Equal` holds exactly for integer sequences of the same length with
the same components, so 2.5.4.4 and 2.5.4.42 are distinct tags and a one-pair scan matches
only an equal tag; a name whose only pair is (2.5.4.4, v) is serialized with the beginning
`G=, SN=v, ` and a name whose only pair is (2.5.4.42, v) with `G=v, SN=, `, in whichever of
the two sequences the pair is stored. -/
theorem attributeValue_tag_equality {α : Type} (sprint : α → String) (base : Name α)
    (v : String) :
    (∀ oi other : ObjectIdentifier, ObjectIdentifier.Equal oi other = true ↔
        (oi.length = other.length ∧ ∀ i : Nat, oi[i]? = other[i]?))
    ∧ ObjectIdentifier.Equal oidSurname oidGivenName = false
    ∧ ObjectIdentifier.Equal oidGivenName oidSurname = false
    ∧ (∀ oid atv, attributeValue.scan sprint oid [atv]
        = if atv.Type_ = oid then some (atv.Value.text sprint) else none)
    ∧ IssuerSerializerKSeF sprint
        { base with Names := [⟨oidSurname, .str v⟩], ExtraNames := [] }
      = .ok ("G=, SN=" ++ v ++ ", " ++ ("SERIALNUMBER=" ++ base.SerialNumber
          ++ ", CN=" ++ base.CommonName ++ ", C=" ++ base.Country.headD ""))
    ∧ IssuerSerializerKSeF sprint
        { base with Names := [], ExtraNames := [⟨oidSurname, .str v⟩] }
      = .ok ("G=, SN=" ++ v ++ ", " ++ ("SERIALNUMBER=" ++ base.SerialNumber
          ++ ", CN=" ++ base.CommonName ++ ", C=" ++ base.Country.headD ""))
    ∧ IssuerSerializerKSeF sprint
        { base with Names := [⟨oidGivenName, .str v⟩], ExtraNames := [] }
      = .ok ("G=" ++ v ++ ", SN=, " ++ ("SERIALNUMBER=" ++ base.SerialNumber
          ++ ", CN=" ++ base.CommonName ++ ", C=" ++ base.Country.headD ""))
    ∧ IssuerSerializerKSeF sprint
        { base with Names := [], ExtraNames := [⟨oidGivenName, .str v⟩] }
      = .ok ("G=" ++ v ++ ", SN=, " ++ ("SERIALNUMBER=" ++ base.SerialNumber
          ++ ", CN=" ++ base.CommonName ++ ", C=" ++ base.Country.headD "")) := by
  have hG1 : attributeValue sprint
      { base with Names := [⟨oidSurname, .str v⟩], ExtraNames := [] } oidGivenName = "" := rfl
  have hS1 : attributeValue sprint
      { base with Names := [⟨oidSurname, .str v⟩], ExtraNames := [] } oidSurname = v := rfl
  have hG2 : attributeValue sprint
      { base with Names := [], ExtraNames := [⟨oidSurname, .str v⟩] } oidGivenName = "" := rfl
  have hS2 : attributeValue sprint
      { base with Names := [], ExtraNames := [⟨oidSurname, .str v⟩] } oidSurname = v := rfl
  have hG3 : attributeValue sprint
      { base with Names := [⟨oidGivenName, .str v⟩], ExtraNames := [] } oidGivenName = v := rfl
  have hS3 : attributeValue sprint
      { base with Names := [⟨oidGivenName, .str v⟩], ExtraNames := [] } oidSurname = "" := rfl
  have hG4 : attributeValue sprint
      { base with Names := [], ExtraNames := [⟨oidGivenName, .str v⟩] } oidGivenName = v := rfl
  have hS4 : attributeValue sprint
      { base with Names := [], ExtraNames := [⟨oidGivenName, .str v⟩] } oidSurname = "" := rfl
  refine ⟨?_, rfl, rfl, ?_, ?_, ?_, ?_, ?_⟩
  · intro oi other
    rw [Equal_iff]
    constructor
    · intro h
      rw [h]
      exact ⟨rfl, fun _ => rfl⟩
    · intro h
      exact List.ext_getElem? h.2
  · intro oid atv
    rw [scan_cons]
    rfl
  · rw [IssuerSerializerKSeF_eq, hG1, hS1]
    refine congrArg Except.ok (String.ext ?_)
    simp [String.data_append]
  · rw [IssuerSerializerKSeF_eq, hG2, hS2]
    refine congrArg Except.ok (String.ext ?_)
    simp [String.data_append]
  · rw [IssuerSerializerKSeF_eq, hG3, hS3]
    refine congrArg Except.ok (String.ext ?_)
    simp [String.data_append]
  · rw [IssuerSerializerKSeF_eq, hG4, hS4]
    refine congrArg Except.ok (String.ext ?_)
    simp [String.data_append]

/-! ### Splitting a character list at an occurrence of a separator -/

theorem append_cons_cancel {β : Type} {x : β} :
    ∀ (a b r t : List β), x ∉ a → x ∉ b → a ++ x :: r = b ++ x :: t → a = b ∧ r = t
  | [], [], r, t, _, _, h => ⟨rfl, (List.cons.inj h).2⟩
  | [], y :: b, r, t, _, hb, h => by
    have hy : x = y := (List.cons.inj h).1
    exact absurd (hy ▸ List.mem_cons_self _ _) hb
  | y :: a, [], r, t, ha, _, h => by
    have hy : y = x := (List.cons.inj h).1
    exact absurd (hy ▸ List.mem_cons_self _ _) ha
  | y :: a, z :: b, r, t, ha, hb, h => by
    have hyz : y = z := (List.cons.inj h).1
    have htl : a ++ x :: r = b ++ x :: t := (List.cons.inj h).2
    have ih := append_cons_cancel a b r t
      (fun hm => ha (List.mem_cons_of_mem _ hm)) (fun hm => hb (List.mem_cons_of_mem _ hm)) htl
    exact ⟨by rw [hyz, ih.1], ih.2⟩

theorem split_after_clean {β : Type} {x : β} :
    ∀ (a r pre post : List β), x ∉ a → a ++ x :: r = pre ++ x :: post →
      (pre = a ∧ post = r) ∨ ∃ mid, pre = a ++ x :: mid ∧ r = mid ++ x :: post
  | [], r, [], post, _, h => Or.inl ⟨rfl, ((List.cons.inj h).2).symm⟩
  | [], r, y :: pre, post, _, h => by
    have hy : x = y := (List.cons.inj h).1
    have htl : r = pre ++ x :: post := (List.cons.inj h).2
    exact Or.inr ⟨pre, by rw [hy]; rfl, htl⟩
  | y :: a, r, [], post, ha, h => by
    have hy : y = x := (List.cons.inj h).1
    exact absurd (hy ▸ List.mem_cons_self _ _) ha
  | y :: a, r, z :: pre, post, ha, h => by
    have hyz : y = z := (List.cons.inj h).1
    have htl : a ++ x :: r = pre ++ x :: post := (List.cons.inj h).2
    rcases split_after_clean a r pre post (fun hm => ha (List.mem_cons_of_mem _ hm)) htl with
      ⟨h1, h2⟩ | ⟨mid, h1, h2⟩
    · exact Or.inl ⟨by rw [hyz, h1], h2⟩
    · exact Or.inr ⟨mid, by rw [hyz, h1]; rfl, h2⟩

theorem not_split_clean {β : Type} {x : β} (a pre post : List β) (ha : x ∉ a) :
    a ≠ pre ++ x :: post := by
  intro h
  apply ha
  rw [h]
  exact List.mem_append_right _ (List.mem_cons_self _ _)

theorem issuer_data (g s n c k : String) :
    ("G=" ++ g ++ ", SN=" ++ s ++ ", SERIALNUMBER=" ++ n ++ ", CN=" ++ c ++ ", C=" ++ k).data
      = ("G=" ++ g).data ++ ',' :: ((" SN=" ++ s).data ++ ',' :: ((" SERIALNUMBER=" ++ n).data
          ++ ',' :: ((" CN=" ++ c).data ++ ',' :: (" C=" ++ k).data))) := by
  simp [String.data_append]

theorem not_mem_key_append (key v : String) (hkey : ',' ∉ key.data) (hv : ',' ∉ v.data) :
    ',' ∉ (key ++ v).data := by
  rw [String.data_append]
  intro hm
  rcases List.mem_append.1 hm with h | h
  · exact hkey h
  · exact hv h

theorem key_append_cancel (key v w : String) (h : (key ++ v).data = (key ++ w).data) :
    v = w := by
  rw [String.data_append, String.data_append] at h
  exact String.ext (List.append_cancel_left h)

theorem len_append (a b : String) : len (a ++ b) = len a + len b := by
  show String.utf8ByteSize.go (a ++ b).data
    = String.utf8ByteSize.go a.data + String.utf8ByteSize.go b.data
  rw [String.data_append, String.utf8ByteSize.go_eq, String.utf8Len_append]

/-- C13. On names whose given-name lookup, surname lookup, serial number and common name
contain no comma, `IssuerSerializerKSeF` is injective in the five values: equal outputs
force equal lookups, equal serial numbers, equal common names and equal results of
`firstOrEmpty` on the country. Without the condition this fails: given name `A, SN=B` with
surname `C` and given name `A` with surname `B, SN=C` have the same output. -/
theorem issuerSerializerKSeF_injective {α : Type} (sprint : α → String) :
    (∀ n₁ n₂ : Name α,
      ',' ∉ (attributeValue sprint n₁ oidGivenName).data →
      ',' ∉ (attributeValue sprint n₁ oidSurname).data →
      ',' ∉ n₁.SerialNumber.data → ',' ∉ n₁.CommonName.data →
      ',' ∉ (attributeValue sprint n₂ oidGivenName).data →
      ',' ∉ (attributeValue sprint n₂ oidSurname).data →
      ',' ∉ n₂.SerialNumber.data → ',' ∉ n₂.CommonName.data →
      IssuerSerializerKSeF sprint n₁ = IssuerSerializerKSeF sprint n₂ →
      attributeValue sprint n₁ oidGivenName = attributeValue sprint n₂ oidGivenName
      ∧ attributeValue sprint n₁ oidSurname = attributeValue sprint n₂ oidSurname
      ∧ n₁.SerialNumber = n₂.SerialNumber
      ∧ n₁.CommonName = n₂.CommonName
      ∧ firstOrEmpty n₁.Country = firstOrEmpty n₂.Country)
    ∧ (∃ n₁ n₂ : Name α,
        IssuerSerializerKSeF sprint n₁ = IssuerSerializerKSeF sprint n₂
        ∧ attributeValue sprint n₁ oidGivenName = "A, SN=B"
        ∧ attributeValue sprint n₁ oidSurname = "C"
        ∧ attributeValue sprint n₂ oidGivenName = "A"
        ∧ attributeValue sprint n₂ oidSurname = "B, SN=C"
        ∧ attributeValue sprint n₁ oidGivenName ≠ attributeValue sprint n₂ oidGivenName
        ∧ attributeValue sprint n₁ oidSurname ≠ attributeValue sprint n₂ oidSurname) := by
  constructor
  · intro n₁ n₂ hg₁ hs₁ hn₁ hc₁ hg₂ hs₂ hn₂ hc₂ heq
    rw [IssuerSerializerKSeF_eq, IssuerSerializerKSeF_eq] at heq
    have hdata := congrArg String.data (Except.ok.inj heq)
    rw [issuer_data, issuer_data] at hdata
    have kG : ',' ∉ "G=".data := by decide
    have kS : ',' ∉ " SN=".data := by decide
    have kN : ',' ∉ " SERIALNUMBER=".data := by decide
    have kC : ',' ∉ " CN=".data := by decide
    obtain ⟨e1, r1⟩ := append_cons_cancel _ _ _ _
      (not_mem_key_append _ _ kG hg₁) (not_mem_key_append _ _ kG hg₂) hdata
    obtain ⟨e2, r2⟩ := append_cons_cancel _ _ _ _
      (not_mem_key_append _ _ kS hs₁) (not_mem_key_append _ _ kS hs₂) r1
    obtain ⟨e3, r3⟩ := append_cons_cancel _ _ _ _
      (not_mem_key_append _ _ kN hn₁) (not_mem_key_append _ _ kN hn₂) r2
    obtain ⟨e4, r4⟩ := append_cons_cancel _ _ _ _
      (not_mem_key_append _ _ kC hc₁) (not_mem_key_append _ _ kC hc₂) r3
    refine ⟨key_append_cancel _ _ _ e1, key_append_cancel _ _ _ e2,
      key_append_cancel _ _ _ e3, key_append_cancel _ _ _ e4, ?_⟩
    rw [firstOrEmpty_eq, firstOrEmpty_eq, key_append_cancel _ _ _ r4]
  · refine ⟨{ Names := [⟨oidGivenName, .str "A, SN=B"⟩, ⟨oidSurname, .str "C"⟩] },
      { Names := [⟨oidGivenName, .str "A"⟩, ⟨oidSurname, .str "B, SN=C"⟩] },
      rfl, rfl, rfl, rfl, rfl, ?_, ?_⟩
    · show "A, SN=B" ≠ "A"
      decide
    · show "C" ≠ "B, SN=C"
      decide

/-- Witness for C13: the end-to-end test name and a name that stores the same given name
and surname in the primary sequence have the same output and the same five values. -/
theorem issuerSerializerKSeF_injective_witness :
    attributeValue sprintNil (testName Unit) oidGivenName
      = attributeValue sprintNil
          { testName Unit with
            Names := [⟨oidSurname, .str "R"⟩, ⟨oidGivenName, .str "A"⟩]
            ExtraNames := [] } oidGivenName
    ∧ attributeValue sprintNil (testName Unit) oidSurname
      = attributeValue sprintNil
          { testName Unit with
            Names := [⟨oidSurname, .str "R"⟩, ⟨oidGivenName, .str "A"⟩]
            ExtraNames := [] } oidSurname :=
  have h := (issuerSerializerKSeF_injective sprintNil).1 (testName Unit)
    { testName Unit with
      Names := [⟨oidSurname, .str "R"⟩, ⟨oidGivenName, .str "A"⟩]
      ExtraNames := [] }
    (by decide) (by decide) (by decide) (by decide)
    (by decide) (by decide) (by decide) (by decide) rfl
  ⟨h.1, h.2.1⟩

theorem commaCount_clean (v : String) (h : ',' ∉ v.data) : commaCount v = 0 :=
  List.count_eq_zero_of_not_mem h

/-- C14. When the two lookups, the serial number, the common name and the result of
`firstOrEmpty` on the country contain no comma, the output has exactly four comma
characters; every comma is followed by a space and the next key, the four occurrences
being the ones before `SN=`, `SERIALNUMBER=`, `CN=` and `C=` in this order; and the length
of the output, in characters and in bytes, is 31 plus the sum of the lengths of the five
values. -/
theorem issuerSerializerKSeF_comma_free {α : Type} (sprint : α → String) (name : Name α)
    (k : String) (hk : firstOrEmpty name.Country = .ok k)
    (hg : ',' ∉ (attributeValue sprint name oidGivenName).data)
    (hs : ',' ∉ (attributeValue sprint name oidSurname).data)
    (hn : ',' ∉ name.SerialNumber.data) (hc : ',' ∉ name.CommonName.data)
    (hkc : ',' ∉ k.data) :
    ∃ g s out, g = attributeValue sprint name oidGivenName
      ∧ s = attributeValue sprint name oidSurname
      ∧ IssuerSerializerKSeF sprint name = .ok out
      ∧ commaCount out = 4
      ∧ (∀ pre post, out.data = pre ++ ',' :: post →
          (pre = ("G=" ++ g).data
            ∧ post = (" SN=" ++ s ++ ", SERIALNUMBER=" ++ name.SerialNumber
                ++ ", CN=" ++ name.CommonName ++ ", C=" ++ k).data)
          ∨ (pre = ("G=" ++ g ++ ", SN=" ++ s).data
            ∧ post = (" SERIALNUMBER=" ++ name.SerialNumber
                ++ ", CN=" ++ name.CommonName ++ ", C=" ++ k).data)
          ∨ (pre = ("G=" ++ g ++ ", SN=" ++ s ++ ", SERIALNUMBER=" ++ name.SerialNumber).data
            ∧ post = (" CN=" ++ name.CommonName ++ ", C=" ++ k).data)
          ∨ (pre = ("G=" ++ g ++ ", SN=" ++ s ++ ", SERIALNUMBER=" ++ name.SerialNumber
                ++ ", CN=" ++ name.CommonName).data
            ∧ post = (" C=" ++ k).data))
      ∧ out.length = 31 + (g.length + s.length + name.SerialNumber.length
          + name.CommonName.length + k.length)
      ∧ len out = 31 + (len g + len s + len name.SerialNumber
          + len name.CommonName + len k) := by
  have hk2 : name.Country.headD "" = k := by
    rw [firstOrEmpty_eq] at hk
    exact Except.ok.inj hk
  refine ⟨_, _, _, rfl, rfl, IssuerSerializerKSeF_eq sprint name, ?_, ?_, ?_, ?_⟩
  · rw [hk2]
    simp only [commaCount_append, commaCount_clean _ hg, commaCount_clean _ hs,
      commaCount_clean _ hn, commaCount_clean _ hc, commaCount_clean _ hkc]
    decide
  · rw [hk2]
    intro pre post hsplit
    rw [issuer_data] at hsplit
    have kG : ',' ∉ "G=".data := by decide
    have kS : ',' ∉ " SN=".data := by decide
    have kN : ',' ∉ " SERIALNUMBER=".data := by decide
    have kC : ',' ∉ " CN=".data := by decide
    have kK : ',' ∉ " C=".data := by decide
    rcases split_after_clean _ _ _ _ (not_mem_key_append _ _ kG hg) hsplit with
      ⟨p1, q1⟩ | ⟨m1, p1, q1⟩
    · refine Or.inl ⟨p1, ?_⟩
      rw [q1]
      simp [String.data_append]
    rcases split_after_clean _ _ _ _ (not_mem_key_append _ _ kS hs) q1 with
      ⟨p2, q2⟩ | ⟨m2, p2, q2⟩
    · refine Or.inr (Or.inl ⟨?_, ?_⟩)
      · rw [p1, p2]
        simp [String.data_append]
      · rw [q2]
        simp [String.data_append]
    rcases split_after_clean _ _ _ _ (not_mem_key_append _ _ kN hn) q2 with
      ⟨p3, q3⟩ | ⟨m3, p3, q3⟩
    · refine Or.inr (Or.inr (Or.inl ⟨?_, ?_⟩))
      · rw [p1, p2, p3]
        simp [String.data_append]
      · rw [q3]
        simp [String.data_append]
    rcases split_after_clean _ _ _ _ (not_mem_key_append _ _ kC hc) q3 with
      ⟨p4, q4⟩ | ⟨m4, _, q4⟩
    · refine Or.inr (Or.inr (Or.inr ⟨?_, ?_⟩))
      · rw [p1, p2, p3, p4]
        simp [String.data_append]
      · rw [q4]
    · exact absurd q4 (not_split_clean _ _ _ (not_mem_key_append _ _ kK hkc))
  · rw [hk2]
    simp only [String.length_append]
    have e1 : "G=".length = 2 := by decide
    have e2 : ", SN=".length = 5 := by decide
    have e3 : ", SERIALNUMBER=".length = 15 := by decide
    have e4 : ", CN=".length = 5 := by decide
    have e5 : ", C=".length = 4 := by decide
    rw [e1, e2, e3, e4, e5]
    omega
  · rw [hk2]
    simp only [len_append]
    have e1 : len "G=" = 2 := by decide
    have e2 : len ", SN=" = 5 := by decide
    have e3 : len ", SERIALNUMBER=" = 15 := by decide
    have e4 : len ", CN=" = 5 := by decide
    have e5 : len ", C=" = 4 := by decide
    rw [e1, e2, e3, e4, e5]
    omega

/-- Witness for C14: the end-to-end test name; its output has four commas and
31 + 1 + 1 + 16 + 3 + 2 = 54 bytes. -/
theorem issuerSerializerKSeF_comma_free_witness :
    ∃ out, IssuerSerializerKSeF sprintNil (testName Unit) = .ok out
      ∧ commaCount out = 4 ∧ len out = 54 := by
  obtain ⟨g, s, out, hg, hs, hout, hcount, _, _, hlen⟩ :=
    issuerSerializerKSeF_comma_free sprintNil (testName Unit) "PL" rfl
      (by decide) (by decide) (by decide) (by decide) (by decide)
  refine ⟨out, hout, hcount, ?_⟩
  rw [hlen, hg, hs]
  decide

theorem inner_extends {α : Type} (sprint : α → String)
    (marshal : AnyValue α → Option (List (Fin 256))) :
    ∀ (l : List (AttributeTypeAndValue α)) (s : String) (j : Nat),
      ∃ t, RDNSequence.String_.inner sprint marshal s j l = s ++ t
  | [], s, _ => ⟨"", by simp [RDNSequence.String_.inner]⟩
  | tv :: rest, s, j => by
    unfold RDNSequence.String_.inner
    simp only []
    split
    · obtain ⟨t, ht⟩ := inner_extends sprint marshal rest _ (j + 1)
      rw [ht]
      by_cases hj : j > 0
      · simp only [hj, if_true]
        exact ⟨_, by rw [String.append_assoc, String.append_assoc]⟩
      · simp only [hj, if_false]
        exact ⟨_, by rw [String.append_assoc]⟩
    · split
      · obtain ⟨t, ht⟩ := inner_extends sprint marshal rest _ (j + 1)
        rw [ht]
        by_cases hj : j > 0
        · simp only [hj, if_true]
          exact ⟨_, by rw [String.append_assoc, String.append_assoc]⟩
        · simp only [hj, if_false]
          exact ⟨_, by rw [String.append_assoc]⟩
      · obtain ⟨t, ht⟩ := inner_extends sprint marshal rest _ (j + 1)
        rw [ht]
        by_cases hj : j > 0
        · simp only [hj, if_true]
          exact ⟨_, by rw [String.append_assoc, String.append_assoc]⟩
        · simp only [hj, if_false]
          exact ⟨_, by rw [String.append_assoc]⟩

theorem outer_extends {α : Type} (sprint : α → String)
    (marshal : AnyValue α → Option (List (Fin 256))) :
    ∀ (r : RDNSequence α) (s : String) (i : Nat),
      ∃ t, RDNSequence.String_.outer sprint marshal s i r = s ++ t
  | [], s, _ => ⟨"", by simp [RDNSequence.String_.outer]⟩
  | rdn :: rest, s, i => by
    unfold RDNSequence.String_.outer
    simp only []
    obtain ⟨t, ht⟩ := outer_extends sprint marshal rest
      (RDNSequence.String_.inner sprint marshal (if i > 0 then s ++ "," else s) 0 rdn) (i + 1)
    obtain ⟨u, hu⟩ := inner_extends sprint marshal rdn (if i > 0 then s ++ "," else s) 0
    rw [ht, hu]
    by_cases hi : i > 0
    · simp only [hi, if_true]
      exact ⟨_, by rw [String.append_assoc, String.append_assoc]⟩
    · simp only [hi, if_false]
      exact ⟨_, by rw [String.append_assoc]⟩

theorem String_testName_begins {α : Type} (sprint : α → String)
    (marshal : AnyValue α → Option (List (Fin 256))) (extraNamesNil : Bool) :
    ∃ t, Name.String_ sprint marshal extraNamesNil (testName α) = "2.5.4.4=" ++ t := by
  have hseq : Name.String_ sprint marshal extraNamesNil (testName α)
      = RDNSequence.String_.outer sprint marshal
          (RDNSequence.String_.inner sprint marshal "" 0 [⟨oidSurname, .str "R"⟩]) 1
          [[⟨oidGivenName, .str "A"⟩], [⟨[2, 5, 4, 5], .str "TINPL-1192154885"⟩],
            [⟨[2, 5, 4, 3], .str "A R"⟩], [⟨[2, 5, 4, 6], .str "PL"⟩]] := by
    cases extraNamesNil <;> rfl
  obtain ⟨t, ht⟩ := outer_extends sprint marshal
    [[⟨oidGivenName, .str "A"⟩], [⟨[2, 5, 4, 5], .str "TINPL-1192154885"⟩],
      [⟨[2, 5, 4, 3], .str "A R"⟩], [⟨[2, 5, 4, 6], .str "PL"⟩]]
    (RDNSequence.String_.inner sprint marshal "" 0 [⟨oidSurname, .str "R"⟩]) 1
  rw [hseq, ht]
  have hinner : ∃ u, RDNSequence.String_.inner sprint marshal "" 0
      [(⟨oidSurname, .str "R"⟩ : AttributeTypeAndValue α)] = "2.5.4.4=" ++ u := by
    have ho : ObjectIdentifier.String_ oidSurname = "2.5.4.4" := by decide
    have hn : attributeTypeNames "2.5.4.4" = none := by decide
    cases hm : marshal (.str "R") with
    | some derBytes =>
      refine ⟨"#" ++ EncodeToString derBytes, ?_⟩
      simp only [RDNSequence.String_.inner, ho, hn, hm]
      refine String.ext ?_
      simp [String.data_append]
    | none =>
      refine ⟨String.mk (RDNSequence.String_.escape (len "R") 0 "R".data), ?_⟩
      simp only [RDNSequence.String_.inner, ho, hn, hm, AnyValue.text]
      refine String.ext ?_
      simp [String.data_append]
  obtain ⟨u, hu⟩ := hinner
  rw [hu]
  exact ⟨u ++ t, by rw [String.append_assoc]⟩

/-- C12. `DefaultIssuerSerializer` and `IssuerSerializerKSeF` are both values of the strategy
type `IssuerSerializer`; `DefaultIssuerSerializer` returns the result of the standard
`Name.String`; on the name of the end-to-end test the two strategies return different
strings (the standard form begins with `2.5.4.4=`, the other with `G=`), whatever the DER
encoder and `fmt.Sprint` do, so every consumer that embeds the serialized issuer
injectively in its output gives different outputs for the two strategies. -/
theorem serializers_differ {α : Type} (sprint : α → String)
    (marshal : AnyValue α → Option (List (Fin 256))) (extraNamesNil : Bool) :
    (∃ f g : IssuerSerializer α,
      f = DefaultIssuerSerializer sprint marshal extraNamesNil ∧ g = IssuerSerializerKSeF sprint)
    ∧ (∀ name : Name α, DefaultIssuerSerializer sprint marshal extraNamesNil name
        = .ok (name.String_ sprint marshal extraNamesNil))
    ∧ DefaultIssuerSerializer sprint marshal extraNamesNil (testName α)
        ≠ IssuerSerializerKSeF sprint (testName α)
    ∧ (∀ (β : Type) (consumer : Except Fault String → β), Function.Injective consumer →
        consumer (DefaultIssuerSerializer sprint marshal extraNamesNil (testName α))
          ≠ consumer (IssuerSerializerKSeF sprint (testName α))) := by
  have hne : DefaultIssuerSerializer sprint marshal extraNamesNil (testName α)
      ≠ IssuerSerializerKSeF sprint (testName α) := by
    intro h
    have hk : IssuerSerializerKSeF sprint (testName α)
        = .ok "G=A, SN=R, SERIALNUMBER=TINPL-1192154885, CN=A R, C=PL" := rfl
    obtain ⟨t, ht⟩ := String_testName_begins sprint marshal extraNamesNil
    rw [hk] at h
    have hs : Name.String_ sprint marshal extraNamesNil (testName α)
        = "G=A, SN=R, SERIALNUMBER=TINPL-1192154885, CN=A R, C=PL" := Except.ok.inj h
    rw [ht] at hs
    have hd := congrArg String.data hs
    rw [String.data_append] at hd
    have hhead := congrArg List.head? hd
    simp at hhead
  exact ⟨⟨_, _, rfl, rfl⟩, fun _ => rfl, hne, fun _ consumer hinj h => hne (hinj h)⟩

/-- Witness for C12: with a DER encoder that knows the two values of the test name, the
standard form is the RFC 2253 style string below, and the identity consumer tells the two
strategies apart. -/
theorem serializers_differ_witness :
    DefaultIssuerSerializer sprintNil marshalShort false (testName Unit)
      = .ok "2.5.4.4=#130152,2.5.4.42=#130141,SERIALNUMBER=TINPL-1192154885,CN=A R,C=PL"
    ∧ IssuerSerializerKSeF sprintNil (testName Unit)
      = .ok "G=A, SN=R, SERIALNUMBER=TINPL-1192154885, CN=A R, C=PL"
    ∧ id (DefaultIssuerSerializer sprintNil marshalShort false (testName Unit))
      ≠ id (IssuerSerializerKSeF sprintNil (testName Unit)) :=
  ⟨rfl, rfl, (serializers_differ sprintNil marshalShort false).2.2.2 _ id
    Function.injective_id⟩

end Xades
